/-
Verification of the airscan-rust core library (`airscan_lib/src/lib.rs`)
against its natural-language specification.

The embedding is shallow and pure: the HTTP transport is modelled by an
explicit trace of responses handed to each loop (one entry per request the
code would issue), and the observable side effects (requests issued,
1-second sleeps, file creations, file writes) are collected in an event
list.  Rust panics are modelled as dedicated error outcomes, following the
specification's §9, which maps the reference code's abrupt terminations to
the typed failures `SubmissionTimedOut`, `RequestFailed`, `TransportError`
and `UnexpectedStatus`.
-/
import Mathlib

deriving instance DecidableEq for Except

namespace Airscan

/-- `reqwest::StatusCode::is_success`: 2xx statuses. -/
def statusIsSuccess (s : Nat) : Bool := 200 ≤ s && s < 300

/-- Observable effects of the loops, in order: an HTTP request being
issued, a 1-second sleep, `File::create` (creates/truncates to empty),
and the copy of a response body into a created file. -/
inductive Ev
  | request
  | sleep
  | create (name : String)
  | write (name : String) (content : String)
  deriving DecidableEq, Repr

/-! ## Result fetcher (`fetch_result`, `determine_filename`) -/

/-- One HTTP response to a `GET {location}/NextDocument` request:
its status code, and its body (`none` models a body whose read
(`response.bytes()`) fails). -/
structure FetchResponse where
  status : Nat
  body : Option String
  deriving DecidableEq, Repr

/-- Failure outcomes of `fetch_result`.  `transportPanic` is the
`panic!("HTTP request failed")`, `unexpectedStatus` the
`panic!("Unexpected HTTP error")`, `filenamePanic` the out-of-bounds
index in `determine_filename`, `ioError` a `?`-propagated I/O failure,
and `outOfResponses` is the model artifact of running out of scripted
responses. -/
inductive FetchError
  | transportPanic
  | unexpectedStatus (status : Nat)
  | filenamePanic
  | ioError
  | outOfResponses
  deriving DecidableEq, Repr

/-- Rust's `str::split('.')` on the underlying character list:
always returns at least one (possibly empty) segment. -/
def splitOnDot : List Char → List (List Char)
  | [] => [[]]
  | c :: rest =>
    match splitOnDot rest with
    | [] => [[]]
    | s :: ss => if c = '.' then [] :: s :: ss else (c :: s) :: ss

/-- `determine_filename(multi, outfile, count)`: in multi mode splits the
output path on `'.'` and produces `format!("{}-{}.{}", parts[0], count,
parts[1])`; accessing `parts[1]` panics (modelled as `none`) when the
split yields fewer than two parts.  In single mode the path is returned
unmodified. -/
def determine_filename (multi : Bool) (outfile : String) (count : Nat) :
    Option String :=
  if multi then
    match splitOnDot outfile.data with
    | p0 :: p1 :: _ =>
        some (String.mk p0 ++ "-" ++ toString count ++ "." ++ String.mk p1)
    | _ => none
  else some outfile

/-- The body of `fetch_result`'s loop.  Each iteration: compute the
destination filename (panicking before any request if that fails), sleep
one second, issue `GET NextDocument` (consuming the next scripted
response; `none` models a transport failure), then classify: on 2xx
create the file, read the body, copy it; on 404 break; otherwise panic.
In single-document mode the loop breaks after the first save. -/
def fetch_loop (multi : Bool) (outfile : String) :
    List (Option FetchResponse) → Nat → Except FetchError Unit × List Ev
  | [], count =>
    match determine_filename multi outfile count with
    | none => (.error .filenamePanic, [])
    | some _ => (.error .outOfResponses, [])
  | r :: rest, count =>
    match determine_filename multi outfile count with
    | none => (.error .filenamePanic, [])
    | some filename =>
      match r with
      | none => (.error .transportPanic, [.sleep, .request])
      | some resp =>
        if statusIsSuccess resp.status then
          match resp.body with
          | none => (.error .ioError, [.sleep, .request, .create filename])
          | some content =>
            if multi then
              let out := fetch_loop multi outfile rest (count + 1)
              (out.1, [Ev.sleep, Ev.request, Ev.create filename,
                       Ev.write filename content] ++ out.2)
            else
              (.ok (), [.sleep, .request, .create filename,
                        .write filename content])
        else if resp.status = 404 then (.ok (), [.sleep, .request])
        else (.error (.unexpectedStatus resp.status), [.sleep, .request])

/-- `fetch_result(location, outfile, multi)`: runs the fetch loop with the
sequence counter starting at 1. -/
def fetch_result (outfile : String) (multi : Bool)
    (resps : List (Option FetchResponse)) : Except FetchError Unit × List Ev :=
  fetch_loop multi outfile resps 1

/-- The files written (name, content) in an event trace, in order. -/
def writesOf (evs : List Ev) : List (String × String) :=
  evs.filterMap fun e =>
    match e with
    | .write n c => some (n, c)
    | _ => none

/-- The files created (`File::create`) in an event trace, in order. -/
def createsOf (evs : List Ev) : List String :=
  evs.filterMap fun e =>
    match e with
    | .create n => some n
    | _ => none

/-- The number of HTTP requests issued in an event trace. -/
def requestsOf (evs : List Ev) : Nat :=
  (evs.filter fun e => e = Ev.request).length

/-- The number of 1-second sleeps in an event trace. -/
def sleepsOf (evs : List Ev) : Nat :=
  (evs.filter fun e => e = Ev.sleep).length

/-- The names of the files written in an event trace, in order. -/
def writeNamesOf (evs : List Ev) : List String :=
  (writesOf evs).map Prod.fst

/-! ## Job submitter (`post_scanrequest`, `send_post`, `increase_retry_count`) -/

/-- One HTTP response to the `POST {url}/ScanJobs` request: its status
code and its `Location` header (`none` when the header is absent or not
valid as a string, mirroring `headers().get("location")` followed by
`to_str().ok()`). -/
structure HttpResponse where
  status : Nat
  location : Option String
  deriving DecidableEq, Repr

/-- `send_post`'s classification of one response (`ScannerResponse` in
the source); rejection is the `Err(anyhow!(response.status()))` arm,
carrying the status code. -/
inductive ScannerResponse
  | success (url : String)
  | busy
  deriving DecidableEq, Repr

/-- `send_post`, given the response the transport produced.  The URL
parser of the `url` crate is an external collaborator and is abstracted
as `parseUrl`.  On a success status the `Location` header, with `"/"`
appended (`format!("{}/", location_string)`), is parsed; if that yields
a URL the submission is accepted.  Otherwise a 503 is classified busy
and anything else is an error carrying the status. -/
def send_post (parseUrl : String → Option String) (resp : HttpResponse) :
    Except Nat ScannerResponse :=
  let locationUrl :=
    if statusIsSuccess resp.status then
      resp.location.bind fun loc => parseUrl (loc ++ "/")
    else none
  match locationUrl with
  | some url => .ok (.success url)
  | none =>
    if resp.status = 503 then .ok .busy
    else .error resp.status

/-- `MAX_RETRIES` in `increase_retry_count`. -/
def MAX_RETRIES : Nat := 100

/-- `increase_retry_count`: increments the counter, sleeps one second,
then panics when the counter has reached `MAX_RETRIES`.  Returns the new
counter and whether the panic fires. -/
def increase_retry_count (count : Nat) : Nat × Bool :=
  (count + 1, decide (MAX_RETRIES ≤ count + 1))

/-- Outcomes of `post_scanrequest`: `accepted` is `Ok(url)`,
`rejected` the propagated `Err(anyhow!(status))`, `transportFailed` the
propagated transport error, `busyTimeout` the
`panic!("Scanner is busy for too long")` (the specification's
`SubmissionTimedOut`), and `outOfResponses` the model artifact of
running out of scripted responses. -/
inductive SubmitOutcome
  | accepted (url : String)
  | rejected (status : Nat)
  | transportFailed
  | busyTimeout
  | outOfResponses
  deriving DecidableEq, Repr

/-- The `loop` in `post_scanrequest`: send the POST (consuming the next
scripted response; `none` models a transport failure), return on
success or error, and on busy run `increase_retry_count` (sleeping one
second) and re-enter the loop unless the retry bound fires. -/
def submit_loop (parseUrl : String → Option String) :
    List (Option HttpResponse) → Nat → SubmitOutcome × List Ev
  | [], _ => (.outOfResponses, [])
  | r :: rest, count =>
    match r with
    | none => (.transportFailed, [.request])
    | some resp =>
      match send_post parseUrl resp with
      | .ok (.success url) => (.accepted url, [.request])
      | .error s => (.rejected s, [.request])
      | .ok .busy =>
        let rc := increase_retry_count count
        if rc.2 then (.busyTimeout, [.request, .sleep])
        else
          let out := submit_loop parseUrl rest rc.1
          (out.1, [Ev.request, Ev.sleep] ++ out.2)

/-- `post_scanrequest`: runs the submission loop with the attempt
counter starting at 0. -/
def post_scanrequest (parseUrl : String → Option String)
    (resps : List (Option HttpResponse)) : SubmitOutcome × List Ev :=
  submit_loop parseUrl resps 0

/-! ## Request builder (`build_scansettings_xml`) -/

/-- `build_scansettings_xml`, mirroring the `push_str` sequence of the
source, including the fixed US-Letter scan region and the optional
`DocumentFormatExt` element carrying the document format again. -/
def build_scansettings_xml (source resolution docformat colormode : String)
    (extformat : Option Bool) : String :=
  "<?xml version=\"1.0\" encoding=\"UTF-8\"?>"
  ++ "<scan:ScanSettings xmlns:pwg=\"http://www.pwg.org/schemas/2010/12/sm\" "
  ++ "xmlns:scan=\"http://schemas.hp.com/imaging/escl/2011/05/03\">"
  ++ "<pwg:Version>2.0</pwg:Version>"
  ++ "<pwg:InputSource>"
  ++ source
  ++ "</pwg:InputSource>"
  ++ "<pwg:ScanRegions>"
  ++ "<pwg:ScanRegion>"
  ++ "<pwg:ContentRegionUnits>escl:ThreeHundredthsOfInches</pwg:ContentRegionUnits>"
  ++ "<pwg:Height>3507</pwg:Height>"
  ++ "<pwg:Width>2550</pwg:Width>"
  ++ "<pwg:XOffset>0</pwg:XOffset>"
  ++ "<pwg:YOffset>0</pwg:YOffset>"
  ++ "</pwg:ScanRegion>"
  ++ "</pwg:ScanRegions>"
  ++ "<pwg:DocumentFormat>"
  ++ docformat
  ++ "</pwg:DocumentFormat>"
  ++ (if extformat.isSome then
        "<pwg:DocumentFormatExt>" ++ docformat ++ "</pwg:DocumentFormatExt>"
      else "")
  ++ "<scan:ColorMode>"
  ++ colormode
  ++ "</scan:ColorMode>"
  ++ "<scan:XResolution>"
  ++ resolution
  ++ "</scan:XResolution>"
  ++ "<scan:YResolution>"
  ++ resolution
  ++ "</scan:YResolution>"
  ++ "</scan:ScanSettings>"

/-! ### Counting occurrences of a pattern in a string -/

/-- Number of positions of `l` at which `pat` occurs (as a contiguous
sublist). -/
def countSub (pat : List Char) : List Char → Nat
  | [] => 0
  | c :: rest =>
    (if pat.isPrefixOf (c :: rest) then 1 else 0) + countSub pat rest

/-- `pat` occurs (as a contiguous substring) in `s`. -/
def occursIn (pat s : String) : Prop :=
  ∃ l r, s.data = l ++ pat.data ++ r

/-- The characters of `v` are all distinct from `'<'`. -/
def ltFreeL (v : List Char) : Bool := v.all fun c => !(c == '<')

/-- The string `s` contains no `'<'` character (no markup). -/
def ltFree (s : String) : Bool := ltFreeL s.data

/-- Every nonempty suffix of `l` that is shorter than `pat` fails to be
a prefix of `pat`: no occurrence of `pat` can start inside `l` and
continue past its end. -/
def blockOk (pat : List Char) : List Char → Bool
  | [] => true
  | c :: l =>
    (decide (pat.length ≤ (c :: l).length) || !((c :: l).isPrefixOf pat))
      && blockOk pat l

/-- A string assembled from alternating literal markup blocks (`inl`)
and markup-free data values (`inr`). -/
def flattenSegs : List (List Char ⊕ List Char) → List Char
  | [] => []
  | .inl l :: rest => l ++ flattenSegs rest
  | .inr v :: rest => v ++ flattenSegs rest

/-- Side conditions under which occurrences of `pat` are confined to the
literal blocks: each literal block satisfies `blockOk` and each value is
markup-free. -/
def segsOk (pat : List Char) : List (List Char ⊕ List Char) → Bool
  | [] => true
  | .inl l :: rest => blockOk pat l && segsOk pat rest
  | .inr v :: rest => ltFreeL v && segsOk pat rest

/-- Occurrences of `pat` inside the literal blocks only. -/
def litCount (pat : List Char) : List (List Char ⊕ List Char) → Nat
  | [] => 0
  | .inl l :: rest => countSub pat l + litCount pat rest
  | .inr _ :: rest => litCount pat rest

/-- The literal markup blocks of the scan-settings document, in order:
the prefix up to the document format, the optional extended-format
block, and the tail. -/
def xmlSegs (source resolution docformat colormode : String)
    (ext : Option Bool) : List (List Char ⊕ List Char) :=
  [.inl "<?xml version=\"1.0\" encoding=\"UTF-8\"?>".data,
   .inl "<scan:ScanSettings xmlns:pwg=\"http://www.pwg.org/schemas/2010/12/sm\" ".data,
   .inl "xmlns:scan=\"http://schemas.hp.com/imaging/escl/2011/05/03\">".data,
   .inl "<pwg:Version>2.0</pwg:Version>".data,
   .inl "<pwg:InputSource>".data,
   .inr source.data,
   .inl "</pwg:InputSource>".data,
   .inl "<pwg:ScanRegions>".data,
   .inl "<pwg:ScanRegion>".data,
   .inl "<pwg:ContentRegionUnits>escl:ThreeHundredthsOfInches</pwg:ContentRegionUnits>".data,
   .inl "<pwg:Height>3507</pwg:Height>".data,
   .inl "<pwg:Width>2550</pwg:Width>".data,
   .inl "<pwg:XOffset>0</pwg:XOffset>".data,
   .inl "<pwg:YOffset>0</pwg:YOffset>".data,
   .inl "</pwg:ScanRegion>".data,
   .inl "</pwg:ScanRegions>".data,
   .inl "<pwg:DocumentFormat>".data,
   .inr docformat.data,
   .inl "</pwg:DocumentFormat>".data]
  ++ (if ext.isSome then
        [.inl "<pwg:DocumentFormatExt>".data,
         .inr docformat.data,
         .inl "</pwg:DocumentFormatExt>".data]
      else [])
  ++ [.inl "<scan:ColorMode>".data,
      .inr colormode.data,
      .inl "</scan:ColorMode>".data,
      .inl "<scan:XResolution>".data,
      .inr resolution.data,
      .inl "</scan:XResolution>".data,
      .inl "<scan:YResolution>".data,
      .inr resolution.data,
      .inl "</scan:YResolution>".data,
      .inl "</scan:ScanSettings>".data]

/-! ## Unfolding lemmas for the event extractors -/

@[simp] theorem writesOf_nil : writesOf [] = [] := rfl

@[simp] theorem writesOf_sleep (evs : List Ev) :
    writesOf (.sleep :: evs) = writesOf evs := rfl

@[simp] theorem writesOf_request (evs : List Ev) :
    writesOf (.request :: evs) = writesOf evs := rfl

@[simp] theorem writesOf_create (f : String) (evs : List Ev) :
    writesOf (.create f :: evs) = writesOf evs := rfl

@[simp] theorem writesOf_write (f c : String) (evs : List Ev) :
    writesOf (.write f c :: evs) = (f, c) :: writesOf evs := rfl

@[simp] theorem createsOf_nil : createsOf [] = [] := rfl

@[simp] theorem createsOf_sleep (evs : List Ev) :
    createsOf (.sleep :: evs) = createsOf evs := rfl

@[simp] theorem createsOf_request (evs : List Ev) :
    createsOf (.request :: evs) = createsOf evs := rfl

@[simp] theorem createsOf_create (f : String) (evs : List Ev) :
    createsOf (.create f :: evs) = f :: createsOf evs := rfl

@[simp] theorem createsOf_write (f c : String) (evs : List Ev) :
    createsOf (.write f c :: evs) = createsOf evs := rfl

@[simp] theorem writeNamesOf_nil : writeNamesOf [] = [] := rfl

@[simp] theorem writeNamesOf_sleep (evs : List Ev) :
    writeNamesOf (.sleep :: evs) = writeNamesOf evs := rfl

@[simp] theorem writeNamesOf_request (evs : List Ev) :
    writeNamesOf (.request :: evs) = writeNamesOf evs := rfl

@[simp] theorem writeNamesOf_create (f : String) (evs : List Ev) :
    writeNamesOf (.create f :: evs) = writeNamesOf evs := rfl

@[simp] theorem writeNamesOf_write (f c : String) (evs : List Ev) :
    writeNamesOf (.write f c :: evs) = f :: writeNamesOf evs := rfl

/-! ## Lemmas about `splitOnDot` -/

theorem splitOnDot_ne_nil : ∀ l : List Char, splitOnDot l ≠ []
  | [] => by simp [splitOnDot]
  | c :: rest => by
    simp only [splitOnDot]
    cases h : splitOnDot rest with
    | nil => simp
    | cons s ss => by_cases hc : c = '.' <;> simp [hc]

theorem splitOnDot_of_not_mem (l : List Char) (h : '.' ∉ l) :
    splitOnDot l = [l] := by
  induction l with
  | nil => rfl
  | cons c l ih =>
    have hc : ¬ c = '.' := by
      intro hc; exact h (hc ▸ List.mem_cons_self c l)
    have hl : '.' ∉ l := fun hm => h (List.mem_cons_of_mem _ hm)
    simp [splitOnDot, ih hl, hc]

theorem splitOnDot_append_dot (n rest : List Char) (h : '.' ∉ n) :
    splitOnDot (n ++ '.' :: rest) = n :: splitOnDot rest := by
  induction n with
  | nil =>
    cases hr : splitOnDot rest with
    | nil => exact absurd hr (splitOnDot_ne_nil rest)
    | cons s ss => simp [splitOnDot, hr]
  | cons c n ih =>
    have hc : ¬ c = '.' := by
      intro hc; exact h (hc ▸ List.mem_cons_self c n)
    have hn : '.' ∉ n := fun hm => h (List.mem_cons_of_mem _ hm)
    simp [splitOnDot, ih hn, hc]

/-! ## Lemmas for counting pattern occurrences -/

theorem data_empty : ("" : String).data = [] := rfl

theorem isPrefixOf_append_of_le :
    ∀ (p xs r : List Char), p.length ≤ xs.length →
      p.isPrefixOf (xs ++ r) = p.isPrefixOf xs := by
  intro p
  induction p with
  | nil => intro xs r _; simp [List.isPrefixOf]
  | cons a p ih =>
    intro xs r h
    cases xs with
    | nil => simp at h
    | cons b xs =>
      simp only [List.cons_append, List.isPrefixOf, List.append_eq]
      rw [ih xs r (by simpa using h)]

theorem isPrefixOf_false_of_lt :
    ∀ (p xs : List Char), xs.length < p.length → p.isPrefixOf xs = false := by
  intro p
  induction p with
  | nil => intro xs h; simp at h
  | cons a p ih =>
    intro xs h
    cases xs with
    | nil => rfl
    | cons b xs =>
      simp only [List.isPrefixOf, Bool.and_eq_false_iff]
      exact Or.inr (ih xs (by simpa using h))

theorem isPrefixOf_swap_of_le :
    ∀ (xs p r : List Char), xs.length ≤ p.length →
      p.isPrefixOf (xs ++ r) = true → xs.isPrefixOf p = true := by
  intro xs
  induction xs with
  | nil => intro p r _ _; simp [List.isPrefixOf]
  | cons b xs ih =>
    intro p r hlen hp
    cases p with
    | nil => simp at hlen
    | cons a p =>
      simp only [List.cons_append, List.isPrefixOf, Bool.and_eq_true,
        beq_iff_eq] at hp ⊢
      exact ⟨hp.1.symm, ih p r (by simpa using hlen) hp.2⟩

/-- Occurrences of a pattern confined to a block: when no nonempty
proper suffix of `lit` shorter than `pat` is a prefix of `pat`, the
occurrences of `pat` in `lit ++ rest` split as those in `lit` plus
those in `rest`. -/
theorem countSub_block (pat : List Char) :
    ∀ (lit : List Char) {rest : List Char}, blockOk pat lit = true →
      countSub pat (lit ++ rest) = countSub pat lit + countSub pat rest := by
  intro lit
  induction lit with
  | nil => intro rest _; simp [countSub]
  | cons c l ih =>
    intro rest hb
    simp only [blockOk, Bool.and_eq_true, Bool.or_eq_true, decide_eq_true_eq,
      Bool.not_eq_true'] at hb
    obtain ⟨hhead, htail⟩ := hb
    have hstep : (c :: l).isPrefixOf ((c :: l) ++ rest) = true := by
      rw [isPrefixOf_append_of_le _ _ _ (Nat.le_refl _)]
      induction (c :: l) with
      | nil => rfl
      | cons x xs ihx => simp [List.isPrefixOf, ihx]
    have hif : pat.isPrefixOf ((c :: l) ++ rest) = pat.isPrefixOf (c :: l) := by
      rcases hhead with hlen | hnp
      · exact isPrefixOf_append_of_le pat (c :: l) rest hlen
      · rcases Nat.lt_or_ge (c :: l).length pat.length with hlt | hge
        · rw [isPrefixOf_false_of_lt pat (c :: l) hlt]
          cases hq : pat.isPrefixOf ((c :: l) ++ rest) with
          | false => rfl
          | true =>
            have := isPrefixOf_swap_of_le (c :: l) pat rest
              (Nat.le_of_lt hlt) hq
            rw [this] at hnp
            exact absurd hnp (by simp)
        · exact isPrefixOf_append_of_le pat (c :: l) rest hge
    calc countSub pat ((c :: l) ++ rest)
        = (if pat.isPrefixOf ((c :: l) ++ rest) then 1 else 0)
            + countSub pat (l ++ rest) := rfl
      _ = (if pat.isPrefixOf (c :: l) then 1 else 0)
            + (countSub pat l + countSub pat rest) := by
          rw [hif, ih htail]
      _ = countSub pat (c :: l) + countSub pat rest := by
          simp [countSub, Nat.add_assoc]

/-- A markup-free value contributes no occurrence of a pattern that
starts with `'<'`. -/
theorem countSub_value (pt : List Char) :
    ∀ (v : List Char) {rest : List Char}, ltFreeL v = true →
      countSub ('<' :: pt) (v ++ rest) = countSub ('<' :: pt) rest := by
  intro v
  induction v with
  | nil => intro rest _; rfl
  | cons c v ih =>
    intro rest hv
    simp only [ltFreeL, List.all_cons, Bool.and_eq_true, Bool.not_eq_true',
      beq_eq_false_iff_ne, ne_eq] at hv
    have hne : ('<' == c) = false := by
      simp [beq_eq_false_iff_ne]
      exact fun h => hv.1 h.symm
    have : ('<' :: pt).isPrefixOf (c :: (v ++ rest)) = false := by
      simp [List.isPrefixOf, hne]
    calc countSub ('<' :: pt) ((c :: v) ++ rest)
        = (if ('<' :: pt).isPrefixOf (c :: (v ++ rest)) then 1 else 0)
            + countSub ('<' :: pt) (v ++ rest) := rfl
      _ = countSub ('<' :: pt) rest := by
          rw [this]
          simpa using ih hv.2

/-- Counting a `'<'`-headed pattern in a flattened segment list reduces
to counting inside the literal blocks. -/
theorem countSub_flattenSegs (pt : List Char) :
    ∀ segs, segsOk ('<' :: pt) segs = true →
      countSub ('<' :: pt) (flattenSegs segs) = litCount ('<' :: pt) segs := by
  intro segs
  induction segs with
  | nil => intro _; rfl
  | cons seg rest ih =>
    intro hok
    cases seg with
    | inl l =>
      simp only [segsOk, Bool.and_eq_true] at hok
      simp only [flattenSegs, litCount]
      rw [countSub_block _ _ hok.1, ih hok.2]
    | inr v =>
      simp only [segsOk, Bool.and_eq_true] at hok
      simp only [flattenSegs, litCount]
      rw [countSub_value _ _ hok.1, ih hok.2]

theorem flattenSegs_append (a b : List (List Char ⊕ List Char)) :
    flattenSegs (a ++ b) = flattenSegs a ++ flattenSegs b := by
  induction a with
  | nil => rfl
  | cons seg rest ih =>
    cases seg <;> simp [flattenSegs, ih]

set_option maxRecDepth 8000 in
set_option maxHeartbeats 4000000 in
/-- The scan-settings document is the flattening of its literal/value
segment decomposition. -/
theorem build_data (source resolution docformat colormode : String)
    (ext : Option Bool) :
    (build_scansettings_xml source resolution docformat colormode ext).data
      = flattenSegs (xmlSegs source resolution docformat colormode ext) := by
  cases ext <;>
  · simp only [build_scansettings_xml, String.data_append, data_empty,
      xmlSegs, Option.isSome_some, Option.isSome_none, if_true,
      Bool.false_eq_true, if_false, List.cons_append, List.nil_append]
    simp only [flattenSegs, List.append_assoc, List.append_nil,
      List.nil_append, List.cons_append]

/-! ## Claim theorems -/

/-- Claim C5: in single-document mode, when the first `NextDocument`
response is a 2xx success, the fetch writes exactly one file, named
exactly the unmodified base output path, containing the full response
body, issues no second request (one `request` event in the whole trace),
and terminates successfully — whatever responses the device would have
produced afterwards. -/
theorem fetch_single_doc (outfile : String) (s : Nat) (body : String)
    (rest : List (Option FetchResponse)) (hs : statusIsSuccess s = true) :
    fetch_result outfile false (some ⟨s, some body⟩ :: rest)
      = (.ok (), [.sleep, .request, .create outfile, .write outfile body]) ∧
    writesOf (fetch_result outfile false (some ⟨s, some body⟩ :: rest)).2
      = [(outfile, body)] ∧
    requestsOf (fetch_result outfile false (some ⟨s, some body⟩ :: rest)).2
      = 1 := by
  have h : fetch_result outfile false (some ⟨s, some body⟩ :: rest)
      = (.ok (), [.sleep, .request, .create outfile, .write outfile body]) := by
    simp [fetch_result, fetch_loop, determine_filename, hs]
  refine ⟨h, ?_, ?_⟩ <;> rw [h] <;> rfl

/-- Witness for C5 at the spec's concrete test: status 200, body
`"Hello, world!"`, base path `test.txt`, device offering a second page. -/
theorem fetch_single_doc_w :
    fetch_result "test.txt" false
        (some ⟨200, some "Hello, world!"⟩ :: [some ⟨200, some "x"⟩])
      = (.ok (), [.sleep, .request, .create "test.txt",
                  .write "test.txt" "Hello, world!"]) ∧
    writesOf (fetch_result "test.txt" false
        (some ⟨200, some "Hello, world!"⟩ :: [some ⟨200, some "x"⟩])).2
      = [("test.txt", "Hello, world!")] ∧
    requestsOf (fetch_result "test.txt" false
        (some ⟨200, some "Hello, world!"⟩ :: [some ⟨200, some "x"⟩])).2
      = 1 :=
  fetch_single_doc "test.txt" 200 "Hello, world!" [some ⟨200, some "x"⟩]
    (by decide)

/-- Claim C6: for a base output path `name.ext` with exactly one `'.'`
separator and any positive sequence number `N`, multi-document mode
names the file `name-N.ext` and single-document mode leaves the base
path unmodified. -/
theorem determine_filename_naming (n e : List Char) (N : Nat)
    (hn : '.' ∉ n) (he : '.' ∉ e) (_hN : 0 < N) :
    determine_filename true (String.mk (n ++ '.' :: e)) N
      = some (String.mk n ++ "-" ++ toString N ++ "." ++ String.mk e) ∧
    determine_filename false (String.mk (n ++ '.' :: e)) N
      = some (String.mk (n ++ '.' :: e)) := by
  constructor
  · have h1 : splitOnDot (n ++ '.' :: e) = [n, e] := by
      rw [splitOnDot_append_dot n e hn, splitOnDot_of_not_mem e he]
    simp [determine_filename, h1]
  · rfl

/-- Witness for C6 at `scan.pdf`, sequence number 3. -/
theorem determine_filename_naming_w :
    determine_filename true "scan.pdf" 3 = some "scan-3.pdf" ∧
    determine_filename false "scan.pdf" 3 = some "scan.pdf" := by
  have h := determine_filename_naming ['s', 'c', 'a', 'n'] ['p', 'd', 'f'] 3
    (by decide) (by decide) (by decide)
  exact ⟨h.1.trans (by decide), h.2.trans (by decide)⟩

/-- Claim C10: on a 2xx `NextDocument` response the destination file is
created (and truncated) before the body is read; when reading the body
fails, the fetch returns an error with the `create` event already in
the trace and no `write` event — the save is not atomic. -/
theorem fetch_create_before_read (outfile : String) (multi : Bool)
    (s : Nat) (rest : List (Option FetchResponse)) (f : String)
    (hdet : determine_filename multi outfile 1 = some f)
    (hs : statusIsSuccess s = true) :
    fetch_result outfile multi (some ⟨s, none⟩ :: rest)
      = (.error .ioError, [.sleep, .request, .create f]) ∧
    createsOf (fetch_result outfile multi (some ⟨s, none⟩ :: rest)).2 = [f] ∧
    writesOf (fetch_result outfile multi (some ⟨s, none⟩ :: rest)).2 = [] := by
  have h : fetch_result outfile multi (some ⟨s, none⟩ :: rest)
      = (.error .ioError, [.sleep, .request, .create f]) := by
    simp [fetch_result, fetch_loop, hdet, hs]
  refine ⟨h, ?_, ?_⟩ <;> rw [h] <;> rfl

/-- Witness for C10 at `test.txt` in single mode with a failing body. -/
theorem fetch_create_before_read_w :
    fetch_result "test.txt" false [some ⟨200, none⟩]
      = (.error .ioError, [.sleep, .request, .create "test.txt"]) ∧
    createsOf (fetch_result "test.txt" false [some ⟨200, none⟩]).2
      = ["test.txt"] ∧
    writesOf (fetch_result "test.txt" false [some ⟨200, none⟩]).2 = [] :=
  fetch_create_before_read "test.txt" false 200 [] "test.txt" rfl (by decide)

/-- Claim C9: a base output path without any `'.'` makes
`determine_filename` in multi mode panic on the out-of-bounds
`parts[1]` access (modelled as `none`), so the multi-document fetch
aborts with the filename panic before issuing any request, whatever the
device would answer; and a base path of the shape
`p0 ++ "." ++ p1 ++ junk` (first two `'.'`-separated segments `p0`,
`p1`, with `junk` empty or itself starting with `'.'`) yields
`p0-N.p1`, silently discarding `junk`. -/
theorem determine_filename_edge_cases (outfile : String) (N : Nat)
    (resps : List (Option FetchResponse)) :
    ('.' ∉ outfile.data →
       determine_filename true outfile N = none ∧
       fetch_result outfile true resps = (.error .filenamePanic, []) ∧
       requestsOf (fetch_result outfile true resps).2 = 0) ∧
    (∀ p0 p1 junk, outfile.data = p0 ++ '.' :: (p1 ++ junk) →
       '.' ∉ p0 → '.' ∉ p1 → (junk = [] ∨ ∃ t, junk = '.' :: t) →
       determine_filename true outfile N
         = some (String.mk p0 ++ "-" ++ toString N ++ "." ++ String.mk p1)) := by
  constructor
  · intro h
    have hsplit : splitOnDot outfile.data = [outfile.data] :=
      splitOnDot_of_not_mem _ h
    have hdet : determine_filename true outfile N = none := by
      simp [determine_filename, hsplit]
    have hdet1 : determine_filename true outfile 1 = none := by
      simp [determine_filename, hsplit]
    refine ⟨hdet, ?_, ?_⟩ <;>
      cases resps <;> simp [fetch_result, fetch_loop, hdet1, requestsOf]
  · intro p0 p1 junk hdata hp0 hp1 hjunk
    have hsplit : ∃ ps, splitOnDot outfile.data = p0 :: p1 :: ps := by
      rw [hdata, splitOnDot_append_dot p0 _ hp0]
      rcases hjunk with rfl | ⟨t, rfl⟩
      · rw [List.append_nil, splitOnDot_of_not_mem p1 hp1]
        exact ⟨[], rfl⟩
      · rw [splitOnDot_append_dot p1 t hp1]
        exact ⟨splitOnDot t, rfl⟩
    obtain ⟨ps, hsplit⟩ := hsplit
    simp [determine_filename, hsplit]

/-- Witness for C9: the dotless path `noext` panics before any request;
the path `a.b.c` with sequence number 7 becomes `a-7.b`, dropping `.c`. -/
theorem determine_filename_edge_cases_w :
    (determine_filename true "noext" 7 = none ∧
     fetch_result "noext" true [some ⟨200, some "x"⟩]
       = (.error .filenamePanic, []) ∧
     requestsOf (fetch_result "noext" true [some ⟨200, some "x"⟩]).2 = 0) ∧
    determine_filename true "a.b.c" 7 = some "a-7.b" := by
  have h := determine_filename_edge_cases "noext" 7 [some ⟨200, some "x"⟩]
  have h2 := determine_filename_edge_cases "a.b.c" 7 []
  refine ⟨h.1 (by decide), ?_⟩
  have := h2.2 ['a'] ['b'] ['.', 'c'] (by decide) (by decide) (by decide)
    (Or.inr ⟨['c'], rfl⟩)
  exact this.trans (by decide)

/-- Claim C4: in multi-document mode against responses 200, 200, 404,
the fetch writes exactly the two files `name-1.ext` and `name-2.ext`
(for base path `name.ext`) with the two respective bodies, creates no
third file, and terminates successfully. -/
theorem fetch_multi_two_docs (outfile : String) (n e : List Char)
    (b1 b2 : String) (hsplit : splitOnDot outfile.data = [n, e]) :
    fetch_result outfile true
        [some ⟨200, some b1⟩, some ⟨200, some b2⟩, some ⟨404, none⟩]
      = (.ok (),
         [.sleep, .request,
          .create (String.mk n ++ "-" ++ toString 1 ++ "." ++ String.mk e),
          .write (String.mk n ++ "-" ++ toString 1 ++ "." ++ String.mk e) b1,
          .sleep, .request,
          .create (String.mk n ++ "-" ++ toString 2 ++ "." ++ String.mk e),
          .write (String.mk n ++ "-" ++ toString 2 ++ "." ++ String.mk e) b2,
          .sleep, .request]) ∧
    writesOf (fetch_result outfile true
        [some ⟨200, some b1⟩, some ⟨200, some b2⟩, some ⟨404, none⟩]).2
      = [(String.mk n ++ "-" ++ toString 1 ++ "." ++ String.mk e, b1),
         (String.mk n ++ "-" ++ toString 2 ++ "." ++ String.mk e, b2)] ∧
    createsOf (fetch_result outfile true
        [some ⟨200, some b1⟩, some ⟨200, some b2⟩, some ⟨404, none⟩]).2
      = [String.mk n ++ "-" ++ toString 1 ++ "." ++ String.mk e,
         String.mk n ++ "-" ++ toString 2 ++ "." ++ String.mk e] := by
  have h : fetch_result outfile true
      [some ⟨200, some b1⟩, some ⟨200, some b2⟩, some ⟨404, none⟩]
      = (.ok (),
         [.sleep, .request,
          .create (String.mk n ++ "-" ++ toString 1 ++ "." ++ String.mk e),
          .write (String.mk n ++ "-" ++ toString 1 ++ "." ++ String.mk e) b1,
          .sleep, .request,
          .create (String.mk n ++ "-" ++ toString 2 ++ "." ++ String.mk e),
          .write (String.mk n ++ "-" ++ toString 2 ++ "." ++ String.mk e) b2,
          .sleep, .request]) := by
    simp [fetch_result, fetch_loop, determine_filename, hsplit, statusIsSuccess]
  refine ⟨h, ?_, ?_⟩ <;> rw [h] <;> rfl

/-- Witness for C4 at base path `test.txt` with the spec's two bodies. -/
theorem fetch_multi_two_docs_w :
    fetch_result "test.txt" true
        [some ⟨200, some "Hello, world!"⟩, some ⟨200, some "Goodbye, world!"⟩,
         some ⟨404, none⟩]
      = (.ok (),
         [.sleep, .request, .create "test-1.txt",
          .write "test-1.txt" "Hello, world!",
          .sleep, .request, .create "test-2.txt",
          .write "test-2.txt" "Goodbye, world!",
          .sleep, .request]) := by
  have h := fetch_multi_two_docs "test.txt" ['t', 'e', 's', 't']
    ['t', 'x', 't'] "Hello, world!" "Goodbye, world!" (by decide)
  exact h.1.trans (by decide)

/-- Claim C7: a `NextDocument` response whose status is neither 2xx nor
404 aborts the fetch with `UnexpectedStatus` carrying that status and
writes no file for that response; with a prior successful iteration,
the previously saved file remains the only write in the trace. -/
theorem fetch_unexpected_aborts (outfile : String) (multi : Bool) (s : Nat)
    (bod : Option String) (rest : List (Option FetchResponse)) (count : Nat)
    (f : String) (hdet : determine_filename multi outfile count = some f)
    (hs : statusIsSuccess s = false) (h404 : s ≠ 404) :
    fetch_loop multi outfile (some ⟨s, bod⟩ :: rest) count
      = (.error (.unexpectedStatus s), [.sleep, .request]) ∧
    (∀ n e b1, splitOnDot outfile.data = [n, e] →
       fetch_result outfile true [some ⟨200, some b1⟩, some ⟨s, bod⟩]
         = (.error (.unexpectedStatus s),
            [.sleep, .request,
             .create (String.mk n ++ "-" ++ toString 1 ++ "." ++ String.mk e),
             .write (String.mk n ++ "-" ++ toString 1 ++ "." ++ String.mk e) b1,
             .sleep, .request]) ∧
       writesOf (fetch_result outfile true
           [some ⟨200, some b1⟩, some ⟨s, bod⟩]).2
         = [(String.mk n ++ "-" ++ toString 1 ++ "." ++ String.mk e, b1)]) := by
  constructor
  · simp [fetch_loop, hdet, hs, h404]
  · intro n e b1 hsplit
    have h : fetch_result outfile true [some ⟨200, some b1⟩, some ⟨s, bod⟩]
        = (.error (.unexpectedStatus s),
           [.sleep, .request,
            .create (String.mk n ++ "-" ++ toString 1 ++ "." ++ String.mk e),
            .write (String.mk n ++ "-" ++ toString 1 ++ "." ++ String.mk e) b1,
            .sleep, .request]) := by
      simp [fetch_result, fetch_loop, determine_filename, hsplit, hs, h404,
        show statusIsSuccess 200 = true from rfl]
    refine ⟨h, ?_⟩
    rw [h]
    rfl

/-- Witness for C7 at status 500 against base path `test.txt`. -/
theorem fetch_unexpected_aborts_w :
    fetch_loop true "test.txt" [some ⟨500, none⟩] 1
      = (.error (.unexpectedStatus 500), [.sleep, .request]) ∧
    fetch_result "test.txt" true [some ⟨200, some "Hi"⟩, some ⟨500, none⟩]
      = (.error (.unexpectedStatus 500),
         [.sleep, .request, .create "test-1.txt", .write "test-1.txt" "Hi",
          .sleep, .request]) := by
  have h := fetch_unexpected_aborts "test.txt" true 500 none [] 1 "test-1.txt"
    (by decide) (by decide) (by decide)
  refine ⟨h.1, ?_⟩
  have h2 := (h.2 ['t', 'e', 's', 't'] ['t', 'x', 't'] "Hi" (by decide)).1
  exact h2.trans (by decide)

/-- In multi-document mode the names of the files written by the fetch
loop started at counter `count` are exactly `name-count.ext`,
`name-(count+1).ext`, …, consecutively and gaplessly, for every
response trace. -/
theorem fetch_loop_writeNames (outfile : String) (n e : List Char)
    (hsplit : splitOnDot outfile.data = [n, e]) :
    ∀ (resps : List (Option FetchResponse)) (count : Nat),
      ∃ k, writeNamesOf (fetch_loop true outfile resps count).2
        = (List.range' count k).map
            (fun j => String.mk n ++ "-" ++ toString j ++ "." ++ String.mk e) := by
  intro resps
  induction resps with
  | nil =>
    intro count
    exact ⟨0, by
      simp [fetch_loop, determine_filename, hsplit, writeNamesOf, writesOf]⟩
  | cons r rest ih =>
    intro count
    have hdet : determine_filename true outfile count
        = some (String.mk n ++ "-" ++ toString count ++ "." ++ String.mk e) := by
      simp [determine_filename, hsplit]
    cases r with
    | none =>
      exact ⟨0, by simp [fetch_loop, hdet, writeNamesOf, writesOf]⟩
    | some resp =>
      by_cases hsucc : statusIsSuccess resp.status = true
      · cases hb : resp.body with
        | none =>
          exact ⟨0, by simp [fetch_loop, hdet, hsucc, hb, writeNamesOf, writesOf]⟩
        | some content =>
          obtain ⟨k, hk⟩ := ih (count + 1)
          exact ⟨k + 1, by simp [fetch_loop, hdet, hsucc, hb, hk, List.range']⟩
      · by_cases h404 : resp.status = 404 <;>
          exact ⟨0, by simp [fetch_loop, hdet, hsucc, h404,
            show statusIsSuccess 404 = false from rfl]⟩

/-- When every successful response has a readable body, every file the
fetch loop creates also receives its write: one file per successful
`NextDocument` response. -/
theorem fetch_loop_creates_eq_writes (multi : Bool) (outfile : String) :
    ∀ (resps : List (Option FetchResponse)) (count : Nat),
      (∀ resp : FetchResponse, some resp ∈ resps →
        statusIsSuccess resp.status = true → resp.body.isSome = true) →
      createsOf (fetch_loop multi outfile resps count).2
        = writeNamesOf (fetch_loop multi outfile resps count).2 := by
  intro resps
  induction resps with
  | nil =>
    intro count _
    cases hdet : determine_filename multi outfile count <;>
      simp [fetch_loop, hdet]
  | cons r rest ih =>
    intro count hb
    cases hdet : determine_filename multi outfile count with
    | none => simp [fetch_loop, hdet]
    | some f =>
      cases r with
      | none => simp [fetch_loop, hdet]
      | some resp =>
        by_cases hsucc : statusIsSuccess resp.status = true
        · have hbody : resp.body.isSome = true :=
            hb resp (List.mem_cons_self _ _) hsucc
          obtain ⟨content, hc⟩ := Option.isSome_iff_exists.mp hbody
          cases multi with
          | true =>
            have hrec := ih (count + 1)
              (fun resp2 hm2 hs2 => hb resp2 (List.mem_cons_of_mem _ hm2) hs2)
            simp [fetch_loop, hdet, hsucc, hc, hrec]
          | false =>
            simp [fetch_loop, hdet, hsucc, hc]
        · by_cases h404 : resp.status = 404 <;>
            simp [fetch_loop, hdet, hsucc, h404,
              show statusIsSuccess 404 = false from rfl]

/-- Claim C8: over every run of the fetch loop in multi-document mode
whose successful responses have readable bodies, the sequence number
starts at 1 and the written files are named with consecutive, gapless
sequence numbers `1, …, k`; and every created file (one per successful
`NextDocument` response) receives exactly its write. -/
theorem fetch_sequence_invariant (outfile : String) (n e : List Char)
    (resps : List (Option FetchResponse))
    (hsplit : splitOnDot outfile.data = [n, e])
    (hb : ∀ resp : FetchResponse, some resp ∈ resps →
      statusIsSuccess resp.status = true → resp.body.isSome = true) :
    (∃ k, writeNamesOf (fetch_result outfile true resps).2
        = (List.range' 1 k).map
            (fun j => String.mk n ++ "-" ++ toString j ++ "." ++ String.mk e)) ∧
    createsOf (fetch_result outfile true resps).2
      = writeNamesOf (fetch_result outfile true resps).2 :=
  ⟨fetch_loop_writeNames outfile n e hsplit resps 1,
   fetch_loop_creates_eq_writes true outfile resps 1 hb⟩

/-- Witness for C8 at `test.txt` with two pages then 404. -/
theorem fetch_sequence_invariant_w :
    (∃ k, writeNamesOf (fetch_result "test.txt" true
        [some ⟨200, some "a"⟩, some ⟨200, some "b"⟩, some ⟨404, none⟩]).2
        = (List.range' 1 k).map
            (fun j => String.mk ['t', 'e', 's', 't'] ++ "-" ++ toString j
              ++ "." ++ String.mk ['t', 'x', 't'])) ∧
    createsOf (fetch_result "test.txt" true
        [some ⟨200, some "a"⟩, some ⟨200, some "b"⟩, some ⟨404, none⟩]).2
      = writeNamesOf (fetch_result "test.txt" true
        [some ⟨200, some "a"⟩, some ⟨200, some "b"⟩, some ⟨404, none⟩]).2 :=
  fetch_sequence_invariant "test.txt" ['t', 'e', 's', 't'] ['t', 'x', 't']
    [some ⟨200, some "a"⟩, some ⟨200, some "b"⟩, some ⟨404, none⟩]
    (by decide)
    (by
      intro resp hm hsucc
      simp only [List.mem_cons, List.not_mem_nil, or_false,
        Option.some.injEq] at hm
      rcases hm with rfl | rfl | rfl
      · rfl
      · rfl
      · exact absurd hsucc (by decide))

/-- A busy (503) response is classified `Busy` by `send_post`,
whatever its `Location` header. -/
theorem send_post_busy (parseUrl : String → Option String)
    (loc : Option String) :
    send_post parseUrl ⟨503, loc⟩ = .ok .busy := rfl

/-- Starting from attempt counter `c` with `k` busy responses ahead and
`c + k = MAX_RETRIES`, the submit loop times out after consuming
exactly those `k` responses, its trace being `k` request/sleep cycles. -/
theorem submit_loop_busy_exhausts (parseUrl : String → Option String)
    (loc : Option String) :
    ∀ (k c : Nat), c + k = 100 → 1 ≤ k →
      ∀ rest, submit_loop parseUrl
          (List.replicate k (some ⟨503, loc⟩) ++ rest) c
        = (.busyTimeout, (List.replicate k [Ev.request, Ev.sleep]).flatten) := by
  intro k
  induction k with
  | zero => intro c _ h1; exact absurd h1 (by decide)
  | succ k ih =>
    intro c hc _ rest
    cases Nat.eq_zero_or_pos k with
    | inl hk0 =>
      subst hk0
      have hc99 : c = 99 := by omega
      subst hc99
      simp [submit_loop, send_post_busy, increase_retry_count, MAX_RETRIES]
    | inr hkpos =>
      have hlt : ¬ MAX_RETRIES ≤ c + 1 := by
        simp only [MAX_RETRIES]; omega
      have hrec := ih (c + 1) (by omega) hkpos rest
      simp [List.replicate_succ, submit_loop, send_post_busy,
        increase_retry_count, hlt, hrec]

/-- Claim C1: against an endpoint answering 503 on every attempt, the
submission — with its attempt counter starting at 0, as
`post_scanrequest` is defined — runs exactly 100 retry cycles, each one
request followed by one 1-second sleep, then fails with the
busy-timeout (`SubmissionTimedOut`) abort and never succeeds, without
consuming any further response. -/
theorem submit_always_busy_timeout (parseUrl : String → Option String)
    (loc : Option String) (rest : List (Option HttpResponse)) :
    post_scanrequest parseUrl (List.replicate 100 (some ⟨503, loc⟩) ++ rest)
      = (.busyTimeout, (List.replicate 100 [Ev.request, Ev.sleep]).flatten) ∧
    requestsOf (post_scanrequest parseUrl
        (List.replicate 100 (some ⟨503, loc⟩) ++ rest)).2 = 100 ∧
    sleepsOf (post_scanrequest parseUrl
        (List.replicate 100 (some ⟨503, loc⟩) ++ rest)).2 = 100 ∧
    ∀ url, (post_scanrequest parseUrl
        (List.replicate 100 (some ⟨503, loc⟩) ++ rest)).1
          ≠ SubmitOutcome.accepted url := by
  have h : post_scanrequest parseUrl
      (List.replicate 100 (some ⟨503, loc⟩) ++ rest)
      = (.busyTimeout, (List.replicate 100 [Ev.request, Ev.sleep]).flatten) :=
    submit_loop_busy_exhausts parseUrl loc 100 0 rfl (by decide) rest
  refine ⟨h, ?_, ?_, ?_⟩ <;> rw [h]
  · rfl
  · rfl
  · intro url hurl
    exact SubmitOutcome.noConfusion hurl

/-- Claim C2: a submission response with a success status and a
`Location` header that (with the trailing `"/"` appended) parses as a
URL makes the submit operation terminate successfully at once,
returning that URL as the job location. -/
theorem submit_accepted_location (parseUrl : String → Option String)
    (resp : HttpResponse) (loc : String) (rest : List (Option HttpResponse))
    (hs : statusIsSuccess resp.status = true)
    (hl : resp.location = some loc)
    (hp : parseUrl (loc ++ "/") = some (loc ++ "/")) :
    post_scanrequest parseUrl (some resp :: rest)
      = (.accepted (loc ++ "/"), [.request]) := by
  have hsend : send_post parseUrl resp = .ok (.success (loc ++ "/")) := by
    simp [send_post, hs, hl, hp]
  simp [post_scanrequest, submit_loop, hsend]

/-- Witness for C2: a 200 response with header
`Location: http://host/job-id` yields the accepted job location
`http://host/job-id/`. -/
theorem submit_accepted_location_w :
    post_scanrequest (fun s => some s)
        [some ⟨200, some "http://host/job-id"⟩]
      = (.accepted "http://host/job-id/", [.request]) := by
  have h := submit_accepted_location (fun s => some s)
    ⟨200, some "http://host/job-id"⟩ "http://host/job-id" [] rfl rfl rfl
  exact h.trans (by decide)

set_option maxRecDepth 8000 in
/-- Counterexample to claim C3 as stated: the builder treats values as
opaque strings, so a document-format value that itself contains markup
— here `<pwg:InputSource>y</pwg:InputSource>` — makes the output
contain two `InputSource` elements, not exactly one. -/
theorem build_xml_elements_cex :
    countSub "<pwg:InputSource>".data
      (build_scansettings_xml "x" "300"
        "<pwg:InputSource>y</pwg:InputSource>" "RGB24" none).data = 2 := by
  decide

set_option maxRecDepth 8000 in
set_option maxHeartbeats 4000000 in
/-- Claim C3, amended with the proviso that the supplied values carry
no markup (no `'<'` character): the built document contains exactly one
`InputSource` opening tag, exactly one `DocumentFormat` opening tag,
and a `DocumentFormatExt` opening tag exactly when `extformat` is
present; and the `InputSource`, `DocumentFormat` and (when present)
`DocumentFormatExt` elements carry the supplied source and document
format values verbatim, `DocumentFormatExt` repeating the
`DocumentFormat` value. -/
theorem build_xml_elements (source resolution docformat colormode : String)
    (ext : Option Bool) (hs : ltFree source = true)
    (hr : ltFree resolution = true) (hd : ltFree docformat = true)
    (hc : ltFree colormode = true) :
    countSub "<pwg:InputSource>".data
      (build_scansettings_xml source resolution docformat colormode ext).data
      = 1 ∧
    countSub "<pwg:DocumentFormat>".data
      (build_scansettings_xml source resolution docformat colormode ext).data
      = 1 ∧
    countSub "<pwg:DocumentFormatExt>".data
      (build_scansettings_xml source resolution docformat colormode ext).data
      = (if ext.isSome then 1 else 0) ∧
    occursIn ("<pwg:InputSource>" ++ source ++ "</pwg:InputSource>")
      (build_scansettings_xml source resolution docformat colormode ext) ∧
    occursIn ("<pwg:DocumentFormat>" ++ docformat ++ "</pwg:DocumentFormat>")
      (build_scansettings_xml source resolution docformat colormode ext) ∧
    (ext.isSome = true →
      occursIn
        ("<pwg:DocumentFormatExt>" ++ docformat ++ "</pwg:DocumentFormatExt>")
        (build_scansettings_xml source resolution docformat colormode ext)) := by
  have hs' : ltFreeL source.data = true := hs
  have hr' : ltFreeL resolution.data = true := hr
  have hd' : ltFreeL docformat.data = true := hd
  have hc' : ltFreeL colormode.data = true := hc
  refine ⟨?_, ?_, ?_, ?_, ?_, ?_⟩
  · rw [build_data, show ("<pwg:InputSource>").data
        = '<' :: ("pwg:InputSource>").data from rfl]
    rcases ext with _ | b
    · have hsegs : segsOk ('<' :: ("pwg:InputSource>").data)
          (xmlSegs source resolution docformat colormode none) = true := by
        simp only [xmlSegs, Option.isSome_none, Bool.false_eq_true, if_false,
          List.cons_append, List.nil_append, List.append_nil, segsOk,
          Bool.and_eq_true]
        simp only [hs', hr', hd', hc', and_true, true_and]
        decide
      rw [countSub_flattenSegs _ _ hsegs]
      simp only [xmlSegs, Option.isSome_none, Bool.false_eq_true, if_false,
        List.cons_append, List.nil_append, List.append_nil, litCount]
      decide
    · have hsegs : segsOk ('<' :: ("pwg:InputSource>").data)
          (xmlSegs source resolution docformat colormode (some b)) = true := by
        simp only [xmlSegs, Option.isSome_some, if_true, List.cons_append,
          List.nil_append, List.append_nil, segsOk, Bool.and_eq_true]
        simp only [hs', hr', hd', hc', and_true, true_and]
        decide
      rw [countSub_flattenSegs _ _ hsegs]
      simp only [xmlSegs, Option.isSome_some, if_true, List.cons_append,
        List.nil_append, List.append_nil, litCount]
      decide
  · rw [build_data, show ("<pwg:DocumentFormat>").data
        = '<' :: ("pwg:DocumentFormat>").data from rfl]
    rcases ext with _ | b
    · have hsegs : segsOk ('<' :: ("pwg:DocumentFormat>").data)
          (xmlSegs source resolution docformat colormode none) = true := by
        simp only [xmlSegs, Option.isSome_none, Bool.false_eq_true, if_false,
          List.cons_append, List.nil_append, List.append_nil, segsOk,
          Bool.and_eq_true]
        simp only [hs', hr', hd', hc', and_true, true_and]
        decide
      rw [countSub_flattenSegs _ _ hsegs]
      simp only [xmlSegs, Option.isSome_none, Bool.false_eq_true, if_false,
        List.cons_append, List.nil_append, List.append_nil, litCount]
      decide
    · have hsegs : segsOk ('<' :: ("pwg:DocumentFormat>").data)
          (xmlSegs source resolution docformat colormode (some b)) = true := by
        simp only [xmlSegs, Option.isSome_some, if_true, List.cons_append,
          List.nil_append, List.append_nil, segsOk, Bool.and_eq_true]
        simp only [hs', hr', hd', hc', and_true, true_and]
        decide
      rw [countSub_flattenSegs _ _ hsegs]
      simp only [xmlSegs, Option.isSome_some, if_true, List.cons_append,
        List.nil_append, List.append_nil, litCount]
      decide
  · rw [build_data, show ("<pwg:DocumentFormatExt>").data
        = '<' :: ("pwg:DocumentFormatExt>").data from rfl]
    rcases ext with _ | b
    · have hsegs : segsOk ('<' :: ("pwg:DocumentFormatExt>").data)
          (xmlSegs source resolution docformat colormode none) = true := by
        simp only [xmlSegs, Option.isSome_none, Bool.false_eq_true, if_false,
          List.cons_append, List.nil_append, List.append_nil, segsOk,
          Bool.and_eq_true]
        simp only [hs', hr', hd', hc', and_true, true_and]
        decide
      rw [countSub_flattenSegs _ _ hsegs]
      simp only [xmlSegs, Option.isSome_none, Bool.false_eq_true, if_false,
        List.cons_append, List.nil_append, List.append_nil, litCount]
      decide
    · have hsegs : segsOk ('<' :: ("pwg:DocumentFormatExt>").data)
          (xmlSegs source resolution docformat colormode (some b)) = true := by
        simp only [xmlSegs, Option.isSome_some, if_true, List.cons_append,
          List.nil_append, List.append_nil, segsOk, Bool.and_eq_true]
        simp only [hs', hr', hd', hc', and_true, true_and]
        decide
      rw [countSub_flattenSegs _ _ hsegs]
      simp only [xmlSegs, Option.isSome_some, if_true, List.cons_append,
        List.nil_append, List.append_nil, litCount]
      decide
  · refine ⟨("<?xml version=\"1.0\" encoding=\"UTF-8\"?>"
        ++ "<scan:ScanSettings xmlns:pwg=\"http://www.pwg.org/schemas/2010/12/sm\" "
        ++ "xmlns:scan=\"http://schemas.hp.com/imaging/escl/2011/05/03\">"
        ++ "<pwg:Version>2.0</pwg:Version>").data,
      ("<pwg:ScanRegions>" ++ "<pwg:ScanRegion>"
        ++ "<pwg:ContentRegionUnits>escl:ThreeHundredthsOfInches</pwg:ContentRegionUnits>"
        ++ "<pwg:Height>3507</pwg:Height>" ++ "<pwg:Width>2550</pwg:Width>"
        ++ "<pwg:XOffset>0</pwg:XOffset>" ++ "<pwg:YOffset>0</pwg:YOffset>"
        ++ "</pwg:ScanRegion>" ++ "</pwg:ScanRegions>"
        ++ "<pwg:DocumentFormat>" ++ docformat ++ "</pwg:DocumentFormat>"
        ++ (if ext.isSome then
              "<pwg:DocumentFormatExt>" ++ docformat
                ++ "</pwg:DocumentFormatExt>"
            else "")
        ++ "<scan:ColorMode>" ++ colormode ++ "</scan:ColorMode>"
        ++ "<scan:XResolution>" ++ resolution ++ "</scan:XResolution>"
        ++ "<scan:YResolution>" ++ resolution ++ "</scan:YResolution>"
        ++ "</scan:ScanSettings>").data, ?_⟩
    cases ext <;>
    · simp only [build_scansettings_xml, String.data_append, data_empty,
        Option.isSome_some, Option.isSome_none, if_true, Bool.false_eq_true,
        if_false, List.cons_append, List.nil_append, List.append_assoc,
        List.append_nil]
  · refine ⟨("<?xml version=\"1.0\" encoding=\"UTF-8\"?>"
        ++ "<scan:ScanSettings xmlns:pwg=\"http://www.pwg.org/schemas/2010/12/sm\" "
        ++ "xmlns:scan=\"http://schemas.hp.com/imaging/escl/2011/05/03\">"
        ++ "<pwg:Version>2.0</pwg:Version>"
        ++ "<pwg:InputSource>" ++ source ++ "</pwg:InputSource>"
        ++ "<pwg:ScanRegions>" ++ "<pwg:ScanRegion>"
        ++ "<pwg:ContentRegionUnits>escl:ThreeHundredthsOfInches</pwg:ContentRegionUnits>"
        ++ "<pwg:Height>3507</pwg:Height>" ++ "<pwg:Width>2550</pwg:Width>"
        ++ "<pwg:XOffset>0</pwg:XOffset>" ++ "<pwg:YOffset>0</pwg:YOffset>"
        ++ "</pwg:ScanRegion>" ++ "</pwg:ScanRegions>").data,
      ((if ext.isSome then
          "<pwg:DocumentFormatExt>" ++ docformat ++ "</pwg:DocumentFormatExt>"
        else "")
        ++ "<scan:ColorMode>" ++ colormode ++ "</scan:ColorMode>"
        ++ "<scan:XResolution>" ++ resolution ++ "</scan:XResolution>"
        ++ "<scan:YResolution>" ++ resolution ++ "</scan:YResolution>"
        ++ "</scan:ScanSettings>").data, ?_⟩
    cases ext <;>
    · simp only [build_scansettings_xml, String.data_append, data_empty,
        Option.isSome_some, Option.isSome_none, if_true, Bool.false_eq_true,
        if_false, List.cons_append, List.nil_append, List.append_assoc,
        List.append_nil]
  · intro hext
    rcases ext with _ | b
    · simp at hext
    · refine ⟨("<?xml version=\"1.0\" encoding=\"UTF-8\"?>"
          ++ "<scan:ScanSettings xmlns:pwg=\"http://www.pwg.org/schemas/2010/12/sm\" "
          ++ "xmlns:scan=\"http://schemas.hp.com/imaging/escl/2011/05/03\">"
          ++ "<pwg:Version>2.0</pwg:Version>"
          ++ "<pwg:InputSource>" ++ source ++ "</pwg:InputSource>"
          ++ "<pwg:ScanRegions>" ++ "<pwg:ScanRegion>"
          ++ "<pwg:ContentRegionUnits>escl:ThreeHundredthsOfInches</pwg:ContentRegionUnits>"
          ++ "<pwg:Height>3507</pwg:Height>" ++ "<pwg:Width>2550</pwg:Width>"
          ++ "<pwg:XOffset>0</pwg:XOffset>" ++ "<pwg:YOffset>0</pwg:YOffset>"
          ++ "</pwg:ScanRegion>" ++ "</pwg:ScanRegions>"
          ++ "<pwg:DocumentFormat>" ++ docformat
          ++ "</pwg:DocumentFormat>").data,
        ("<scan:ColorMode>" ++ colormode ++ "</scan:ColorMode>"
          ++ "<scan:XResolution>" ++ resolution ++ "</scan:XResolution>"
          ++ "<scan:YResolution>" ++ resolution ++ "</scan:YResolution>"
          ++ "</scan:ScanSettings>").data, ?_⟩
      simp only [build_scansettings_xml, String.data_append, data_empty,
        Option.isSome_some, if_true, List.cons_append, List.nil_append,
        List.append_assoc, List.append_nil]

/-- Witness for the amended C3 at the reference usage: a feeder PDF
scan with the extended format flag set. -/
theorem build_xml_elements_w :
    countSub "<pwg:InputSource>".data
      (build_scansettings_xml "Feeder" "300" "application/pdf" "RGB24"
        (some true)).data = 1 ∧
    countSub "<pwg:DocumentFormat>".data
      (build_scansettings_xml "Feeder" "300" "application/pdf" "RGB24"
        (some true)).data = 1 ∧
    countSub "<pwg:DocumentFormatExt>".data
      (build_scansettings_xml "Feeder" "300" "application/pdf" "RGB24"
        (some true)).data
      = (if (some true : Option Bool).isSome then 1 else 0) ∧
    occursIn ("<pwg:InputSource>" ++ "Feeder" ++ "</pwg:InputSource>")
      (build_scansettings_xml "Feeder" "300" "application/pdf" "RGB24"
        (some true)) ∧
    occursIn
      ("<pwg:DocumentFormat>" ++ "application/pdf" ++ "</pwg:DocumentFormat>")
      (build_scansettings_xml "Feeder" "300" "application/pdf" "RGB24"
        (some true)) ∧
    ((some true : Option Bool).isSome = true →
      occursIn ("<pwg:DocumentFormatExt>" ++ "application/pdf"
          ++ "</pwg:DocumentFormatExt>")
        (build_scansettings_xml "Feeder" "300" "application/pdf" "RGB24"
          (some true))) :=
  build_xml_elements "Feeder" "300" "application/pdf" "RGB24" (some true)
    rfl rfl rfl rfl

end Airscan
